import Mathlib

/-!
Shallow embedding of the OrbTk message adapter
(`src/orbtk_core/src/widget_base/message_adapter.rs`) and proofs about it.

Modelling decisions:
* `Entity` (from `dces::entity::Entity`) is a numeric id, modelled as `Nat`.
* Rust's open universe of message payload types is modelled by an abstract
  type `Ty` of type tags (`std::any::TypeId`) with decidable equality,
  together with a family `El : Ty → Type` giving the payload type denoted by
  each tag.  A `Box<dyn Any + Send>` is then a dependent pair `Sigma El`
  (the runtime tag of the stored value together with the value), and
  `Any::downcast` compares the runtime tag with the requested one.
* `BTreeMap` / `HashMap` are modelled as association lists with the usual
  map operations (`entry().or_insert_with()` chains become get-or-default
  followed by insert; `remove` deletes the key).  Reachable adapter states
  have `Nodup` keys, so the association lists represent maps faithfully.
* A Rust panic (`expect` / `unwrap`) is modelled as `Option.none` in the
  result of the operation that would panic.
* The `mpsc::Sender<WindowRequest>` notification channel is modelled by a
  `WindowChannel` carrying the list of requests sent so far plus a flag
  telling whether the receiver is still alive; `send` fails exactly when
  the receiver is gone, as for `std::sync::mpsc`.
-/

/-- Entity identifier, `dces::entity::Entity` (a numeric id). -/
abbrev Entity := Nat

/-- The window request sent by the adapter, `WindowRequest::Redraw`
(the only variant `send_message` uses). -/
inductive WindowRequest where
  | Redraw
deriving DecidableEq, Repr

/-- Model of the `mpsc::Sender<WindowRequest>` endpoint: the requests sent so
far and whether the receiving end still exists. -/
structure WindowChannel where
  receiver_alive : Bool
  sent : List WindowRequest
deriving DecidableEq, Repr

/-- Model of `mpsc::Sender::send`: succeeds and appends the request when the
receiver is alive, errors when the receiver was dropped. -/
def WindowChannel.send (ch : WindowChannel) (r : WindowRequest) :
    Except String WindowChannel :=
  if ch.receiver_alive then
    Except.ok { ch with sent := ch.sent ++ [r] }
  else
    Except.error "sending on a closed channel"

section AssocMap

variable {κ : Type} {α : Type} [DecidableEq κ]

/-- Association-list lookup, modelling `BTreeMap::get` / `HashMap::get`. -/
def mapGet? : List (κ × α) → κ → Option α
  | [], _ => none
  | (k, v) :: rest, key => if k = key then some v else mapGet? rest key

/-- Association-list insert-or-replace, modelling the write performed by a
`map.entry(key).or_insert_with(..)` chain (the bucket for `key` becomes `v`,
all other keys keep their values). -/
def mapInsert : List (κ × α) → κ → α → List (κ × α)
  | [], key, v => [(key, v)]
  | (k, w) :: rest, key, v =>
    if k = key then (k, v) :: rest else (k, w) :: mapInsert rest key v

/-- Association-list key removal, modelling `BTreeMap::remove` /
`HashMap::remove` (the key is gone from the map afterwards). -/
def mapErase (m : List (κ × α)) (key : κ) : List (κ × α) :=
  m.filter (fun p => decide (p.1 ≠ key))

end AssocMap

section MessageModel

variable {Ty : Type} {El : Ty → Type} [DecidableEq Ty]

/-- Internal wrapper that stores a message inside a box (`MessageBox`):
a type-erased payload (`Box<dyn Any + Send>`, i.e. a value together with its
runtime tag), the recorded `TypeId` of the message, and the target entity. -/
structure MessageBox (Ty : Type) (El : Ty → Type) where
  message : Sigma El
  message_type : Ty
  target : Entity

/-- Model of `Box<dyn Any>::downcast::<M>()`: succeeds iff the runtime tag of
the boxed value is `M`. -/
def anyDowncast (m : Sigma El) (M : Ty) : Option (El M) :=
  if h : m.1 = M then some (h ▸ m.2) else none

/-- MessageBox::downcast: if the recorded `message_type` equals `M`,
return `Ok` of the unwrapped inner downcast (the `unwrap` panics — outer
`none` — if the boxed value's tag were different); otherwise return the
"Wrong message type" error. -/
def MessageBox.downcast (mb : MessageBox Ty El) (M : Ty) :
    Option (Except String (El M)) :=
  if mb.message_type = M then
    (anyDowncast mb.message M).map Except.ok
  else
    some (Except.error "Wrong message type")

/-- MessageBox::downcast_ref: same check as `downcast`, borrowing instead of
consuming (in the model, yields the same value). -/
def MessageBox.downcast_ref (mb : MessageBox Ty El) (M : Ty) :
    Option (Except String (El M)) :=
  if mb.message_type = M then
    (anyDowncast mb.message M).map Except.ok
  else
    some (Except.error "Wrong message type")

/-- MessageBox::is_type. -/
def MessageBox.is_type (mb : MessageBox Ty El) (M : Ty) : Bool :=
  decide (mb.message_type = M)

/-- MessageBox::new: boxes the payload (recording its runtime tag `M`),
stores the target and sets `message_type` to `M`. -/
def MessageBox.new (M : Ty) (v : El M) (target : Entity) : MessageBox Ty El :=
  { message := ⟨M, v⟩, message_type := M, target := target }

/-- The `MessageAdapter` store: `BTreeMap<Entity, HashMap<TypeId,
Vec<MessageBox>>>` (the `Arc<Mutex<..>>` wrapper and the lock acquisitions
disappear in this sequential model). -/
structure MessageAdapter (Ty : Type) (El : Ty → Type) where
  messages : List (Entity × List (Ty × List (MessageBox Ty El)))

/-- MessageAdapter::new with an empty store. -/
def MessageAdapter.empty : MessageAdapter Ty El := ⟨[]⟩

/-- The store mutation inside MessageAdapter::send_message:
`messages.entry(target).or_insert_with(HashMap::new).entry(TypeId::of::<M>())
.or_insert_with(Vec::new).push(MessageBox::new(message, target))`. -/
def MessageAdapter.push_message (a : MessageAdapter Ty El) (M : Ty) (v : El M)
    (target : Entity) : MessageAdapter Ty El :=
  let inner := (mapGet? a.messages target).getD []
  let vec := (mapGet? inner M).getD []
  ⟨mapInsert a.messages target
    (mapInsert inner M (vec ++ [MessageBox.new M v target]))⟩

/-- MessageAdapter::send_message: performs the store push, then sends
`WindowRequest::Redraw` on the window channel; the `expect` panics (`none`)
exactly when that send fails. -/
def MessageAdapter.send_message (a : MessageAdapter Ty El) (ch : WindowChannel)
    (M : Ty) (v : El M) (target : Entity) :
    Option (MessageAdapter Ty El × WindowChannel) :=
  let a' := a.push_message M v target
  match ch.send WindowRequest.Redraw with
  | Except.ok ch' => some (a', ch')
  | Except.error _ => none

/-- MessageAdapter::entities: the keys of the outer map. -/
def MessageAdapter.entities (a : MessageAdapter Ty El) : List Entity :=
  a.messages.map Prod.fst

/-- MessageAdapter::remove_message_for_entity: removes the entity's entry
from the outer map. -/
def MessageAdapter.remove_message_for_entity (a : MessageAdapter Ty El)
    (target : Entity) : MessageAdapter Ty El :=
  ⟨mapErase a.messages target⟩

/-- MessageAdapter::len: the size of the outer map. -/
def MessageAdapter.len (a : MessageAdapter Ty El) : Nat :=
  a.messages.length

/-- MessageAdapter::is_empty: whether the outer map is empty. -/
def MessageAdapter.is_empty (a : MessageAdapter Ty El) : Bool :=
  a.messages.isEmpty

/-- The `MessageReader`: the inner map moved out of the adapter for one
entity, plus that entity. -/
structure MessageReader (Ty : Type) (El : Ty → Type) where
  messages : List (Ty × List (MessageBox Ty El))
  target : Entity

/-- MessageAdapter::message_reader: removes the entity's inner map from the
store (or takes an empty map if absent) and wraps it in a reader; returns
the reader together with the updated adapter. -/
def MessageAdapter.message_reader (a : MessageAdapter Ty El) (entity : Entity) :
    MessageReader Ty El × MessageAdapter Ty El :=
  (⟨(mapGet? a.messages entity).getD [], entity⟩, ⟨mapErase a.messages entity⟩)

/-- MessageReader::new. -/
def MessageReader.new (messages : List (Ty × List (MessageBox Ty El)))
    (target : Entity) : MessageReader Ty El :=
  ⟨messages, target⟩

/-- MessageReader::entity. -/
def MessageReader.entity (r : MessageReader Ty El) : Entity :=
  r.target

/-- MessageReader::contains_type. -/
def MessageReader.contains_type (r : MessageReader Ty El) (M : Ty) : Bool :=
  (mapGet? r.messages M).isSome

/-- MessageReader::is_empty. -/
def MessageReader.reader_is_empty (r : MessageReader Ty El) : Bool :=
  r.messages.isEmpty

/-- The `MessageIterator<M>`: the vector of boxes moved out of a reader's
bucket for type `M`. -/
structure MessageIterator (Ty : Type) (El : Ty → Type) (M : Ty) where
  messages : List (MessageBox Ty El)

/-- MessageReader::read: removes the whole bucket for `M` from the reader
(or takes an empty vector if absent) and wraps it in an iterator; returns
the iterator together with the updated reader. -/
def MessageReader.read (r : MessageReader Ty El) (M : Ty) :
    MessageIterator Ty El M × MessageReader Ty El :=
  (⟨(mapGet? r.messages M).getD []⟩, ⟨mapErase r.messages M, r.target⟩)

/-- MessageIterator::next: `None` when the vector is empty, otherwise removes
the front box and unwraps its downcast to `M` (the `unwrap` panics — outer
`none` — when the downcast errors). -/
def MessageIterator.next (it : MessageIterator Ty El M) :
    Option (Option (El M) × MessageIterator Ty El M) :=
  match it.messages with
  | [] => some (none, ⟨[]⟩)
  | mb :: rest =>
    match mb.downcast M with
    | some (Except.ok v) => some (some v, ⟨rest⟩)
    | _ => none

/-- Full traversal of a vector of boxes, unwrapping each downcast to `M` in
order: the list of produced values, or `none` if some step panics. -/
def drainBoxes (M : Ty) : List (MessageBox Ty El) → Option (List (El M))
  | [] => some []
  | mb :: rest =>
    match mb.downcast M with
    | some (Except.ok v) => (drainBoxes M rest).map (v :: ·)
    | _ => none

/-- Full traversal of a `MessageIterator` by repeated `next` calls (see
`drain_eq_next_step` for the correspondence with `MessageIterator.next`). -/
def MessageIterator.drain (it : MessageIterator Ty El M) : Option (List (El M)) :=
  drainBoxes M it.messages

/-- One mutating adapter operation (the three store-mutating entry points). -/
inductive AdapterOp (Ty : Type) (El : Ty → Type) where
  | send (M : Ty) (v : El M) (target : Entity)
  | readMessages (e : Entity)
  | removeFor (e : Entity)

/-- Effect of one operation on the store. -/
def MessageAdapter.applyOp (a : MessageAdapter Ty El) :
    AdapterOp Ty El → MessageAdapter Ty El
  | AdapterOp.send M v t => a.push_message M v t
  | AdapterOp.readMessages e => (a.message_reader e).2
  | AdapterOp.removeFor e => a.remove_message_for_entity e

/-- Effect of a sequence of operations on the store. -/
def MessageAdapter.applyOps (a : MessageAdapter Ty El)
    (ops : List (AdapterOp Ty El)) : MessageAdapter Ty El :=
  ops.foldl MessageAdapter.applyOp a

/-- A box filed under outer key `e` and inner key `t` is well-filed when its
recorded target is `e` and both its recorded `message_type` and the runtime
tag of its boxed value are `t`. -/
def goodBox (e : Entity) (t : Ty) (mb : MessageBox Ty El) : Prop :=
  mb.target = e ∧ mb.message_type = t ∧ mb.message.1 = t

/-- Router store invariant: outer and inner keys are `Nodup`, inner maps and
buckets are non-empty, and every box is well-filed under its keys. -/
def MessageAdapter.inv (a : MessageAdapter Ty El) : Prop :=
  (a.messages.map Prod.fst).Nodup ∧
    ∀ p ∈ a.messages, p.2 ≠ [] ∧ (p.2.map Prod.fst).Nodup ∧
      ∀ q ∈ p.2, q.2 ≠ [] ∧ ∀ mb ∈ q.2, goodBox p.1 q.1 mb

/-- The vector of boxes currently filed in the adapter under `(e, M)`
(empty when either key is absent). -/
def MessageAdapter.bucket (a : MessageAdapter Ty El) (e : Entity) (M : Ty) :
    List (MessageBox Ty El) :=
  (mapGet? ((mapGet? a.messages e).getD []) M).getD []

end MessageModel

/-- A concrete tag universe for witness instantiations: tags are numbers. -/
abbrev NatTag := Nat

/-- Payload family for `NatTag`: every tag's payload type is `Nat`. -/
abbrev natEl : NatTag → Type := fun _ => Nat

section MapLemmas

variable {κ : Type} {α : Type} [DecidableEq κ]

theorem mapGet?_insert_self (m : List (κ × α)) (k : κ) (v : α) :
    mapGet? (mapInsert m k v) k = some v := by
  induction m with
  | nil => simp [mapInsert, mapGet?]
  | cons p rest ih =>
    obtain ⟨k₀, w⟩ := p
    by_cases h : k₀ = k
    · simp [mapInsert, mapGet?, h]
    · simp [mapInsert, mapGet?, h, ih]

theorem mapGet?_insert_ne (m : List (κ × α)) (k k' : κ) (v : α) (h : k' ≠ k) :
    mapGet? (mapInsert m k v) k' = mapGet? m k' := by
  induction m with
  | nil => simp [mapInsert, mapGet?, Ne.symm h]
  | cons p rest ih =>
    obtain ⟨k₀, w⟩ := p
    by_cases hk : k₀ = k
    · subst hk
      simp [mapInsert, mapGet?, Ne.symm h]
    · simp only [mapInsert, if_neg hk, mapGet?]
      by_cases hk' : k₀ = k'
      · simp [hk']
      · simp [hk', ih]

theorem mapGet?_mem (m : List (κ × α)) (k : κ) (v : α)
    (h : mapGet? m k = some v) : (k, v) ∈ m := by
  induction m with
  | nil => simp [mapGet?] at h
  | cons p rest ih =>
    obtain ⟨k₀, w⟩ := p
    by_cases hk : k₀ = k
    · subst hk
      have hw : w = v := by simpa [mapGet?] using h
      subst hw
      exact List.mem_cons_self _ _
    · simp only [mapGet?, if_neg hk] at h
      exact List.mem_cons_of_mem _ (ih h)

theorem mem_mapInsert (m : List (κ × α)) (k : κ) (v : α) (p : κ × α)
    (h : p ∈ mapInsert m k v) : p = (k, v) ∨ p ∈ m := by
  induction m with
  | nil => simpa [mapInsert] using h
  | cons q rest ih =>
    obtain ⟨k₀, w⟩ := q
    by_cases hk : k₀ = k
    · subst hk
      simp only [mapInsert, if_pos] at h
      rcases List.mem_cons.mp h with h | h
      · exact Or.inl (by simpa using h)
      · exact Or.inr (List.mem_cons_of_mem _ h)
    · simp only [mapInsert, if_neg hk] at h
      rcases List.mem_cons.mp h with h | h
      · exact Or.inr (by simp [h])
      · rcases ih h with h | h
        · exact Or.inl h
        · exact Or.inr (List.mem_cons_of_mem _ h)

theorem mem_keys_mapInsert (m : List (κ × α)) (k : κ) (v : α) (x : κ)
    (h : x ∈ (mapInsert m k v).map Prod.fst) :
    x = k ∨ x ∈ m.map Prod.fst := by
  rcases List.mem_map.mp h with ⟨p, hp, hpx⟩
  rcases mem_mapInsert m k v p hp with h | h
  · subst h
    exact Or.inl hpx.symm
  · exact Or.inr (hpx ▸ List.mem_map_of_mem Prod.fst h)

theorem keys_mapInsert_nodup (m : List (κ × α)) (k : κ) (v : α)
    (h : (m.map Prod.fst).Nodup) : ((mapInsert m k v).map Prod.fst).Nodup := by
  induction m with
  | nil => simp [mapInsert]
  | cons p rest ih =>
    obtain ⟨k₀, w⟩ := p
    simp only [List.map_cons, List.nodup_cons] at h
    by_cases hk : k₀ = k
    · subst hk
      simpa [mapInsert, List.nodup_cons] using h
    · simp only [mapInsert, if_neg hk, List.map_cons, List.nodup_cons]
      refine ⟨fun hmem => ?_, ih h.2⟩
      rcases mem_keys_mapInsert rest k v k₀ hmem with h' | h'
      · exact hk h'
      · exact h.1 h'

theorem mapInsert_ne_nil (m : List (κ × α)) (k : κ) (v : α) :
    mapInsert m k v ≠ [] := by
  cases m with
  | nil => simp [mapInsert]
  | cons p rest =>
    obtain ⟨k₀, w⟩ := p
    by_cases hk : k₀ = k
    · simp [mapInsert, hk]
    · simp [mapInsert, hk]

theorem mapErase_sublist (m : List (κ × α)) (k : κ) :
    (mapErase m k).Sublist m :=
  List.filter_sublist m

theorem keys_mapErase_nodup (m : List (κ × α)) (k : κ)
    (h : (m.map Prod.fst).Nodup) : ((mapErase m k).map Prod.fst).Nodup :=
  (((mapErase_sublist m k).map Prod.fst).nodup h)

theorem mem_of_mem_mapErase (m : List (κ × α)) (k : κ) (p : κ × α)
    (h : p ∈ mapErase m k) : p ∈ m :=
  (mapErase_sublist m k).mem h

theorem not_mem_keys_mapErase (m : List (κ × α)) (k : κ) :
    k ∉ (mapErase m k).map Prod.fst := by
  intro h
  rcases List.mem_map.mp h with ⟨p, hp, hpk⟩
  have := (List.mem_filter.mp hp).2
  simp only [decide_eq_true_eq] at this
  exact this hpk

theorem mem_keys_of_mem_keys_mapErase (m : List (κ × α)) (k : κ) (x : κ)
    (h : x ∈ (mapErase m k).map Prod.fst) : x ∈ m.map Prod.fst := by
  rcases List.mem_map.mp h with ⟨p, hp, hpx⟩
  exact hpx ▸ List.mem_map_of_mem Prod.fst (mem_of_mem_mapErase m k p hp)

theorem mapGet?_erase_self (m : List (κ × α)) (k : κ) :
    mapGet? (mapErase m k) k = none := by
  cases h : mapGet? (mapErase m k) k with
  | none => rfl
  | some v =>
    exfalso
    have hmem := mapGet?_mem _ _ _ h
    have := (List.mem_filter.mp hmem).2
    simp at this

end MapLemmas

section ModelLemmas

variable {Ty : Type} {El : Ty → Type} [DecidableEq Ty]

theorem anyDowncast_self (M : Ty) (v : El M) :
    anyDowncast (⟨M, v⟩ : Sigma El) M = some v := by
  unfold anyDowncast
  rw [dif_pos rfl]

theorem downcast_new_self (M : Ty) (v : El M) (e : Entity) :
    (MessageBox.new M v e).downcast M = some (Except.ok v) := by
  unfold MessageBox.downcast MessageBox.new
  rw [if_pos rfl]
  simp [anyDowncast_self]

theorem downcast_ref_new_self (M : Ty) (v : El M) (e : Entity) :
    (MessageBox.new M v e).downcast_ref M = some (Except.ok v) := by
  unfold MessageBox.downcast_ref MessageBox.new
  rw [if_pos rfl]
  simp [anyDowncast_self]

theorem downcast_new_ne (U M : Ty) (v : El U) (e : Entity) (h : U ≠ M) :
    (MessageBox.new U v e).downcast M =
      some (Except.error "Wrong message type") := by
  unfold MessageBox.downcast MessageBox.new
  rw [if_neg h]

theorem downcast_ref_new_ne (U M : Ty) (v : El U) (e : Entity) (h : U ≠ M) :
    (MessageBox.new U v e).downcast_ref M =
      some (Except.error "Wrong message type") := by
  unfold MessageBox.downcast_ref MessageBox.new
  rw [if_neg h]

theorem downcast_of_tags (mb : MessageBox Ty El) (M : Ty)
    (h1 : mb.message_type = M) (h2 : mb.message.1 = M) :
    ∃ v, mb.downcast M = some (Except.ok v) := by
  refine ⟨h2 ▸ mb.message.2, ?_⟩
  unfold MessageBox.downcast anyDowncast
  rw [if_pos h1, dif_pos h2]
  rfl

theorem drain_eq_next_step (M : Ty) (it : MessageIterator Ty El M) :
    it.drain =
      match it.next with
      | none => none
      | some (none, _) => some []
      | some (some v, it') => it'.drain.map (v :: ·) := by
  obtain ⟨msgs⟩ := it
  cases msgs with
  | nil => rfl
  | cons mb rest =>
    simp only [MessageIterator.drain, MessageIterator.next, drainBoxes]
    cases hdc : mb.downcast M with
    | none => rfl
    | some r =>
      cases r with
      | ok v => rfl
      | error s => rfl

theorem drain_map_new (M : Ty) (e : Entity) (vs : List (El M)) :
    MessageIterator.drain
        (⟨vs.map (fun v => MessageBox.new M v e)⟩ : MessageIterator Ty El M) =
      some vs := by
  induction vs with
  | nil => rfl
  | cons v vs ih =>
    simp only [MessageIterator.drain, List.map_cons, drainBoxes,
      downcast_new_self]
    simp only [MessageIterator.drain] at ih
    simp [ih]

theorem drain_of_good (M : Ty) (l : List (MessageBox Ty El))
    (h : ∀ mb ∈ l, mb.message_type = M ∧ mb.message.1 = M) :
    ∃ vs, MessageIterator.drain (⟨l⟩ : MessageIterator Ty El M) = some vs := by
  induction l with
  | nil => exact ⟨[], rfl⟩
  | cons mb rest ih =>
    obtain ⟨h1, h2⟩ := h mb (List.mem_cons_self _ _)
    obtain ⟨v, hv⟩ := downcast_of_tags mb M h1 h2
    obtain ⟨vs, hvs⟩ := ih (fun x hx => h x (List.mem_cons_of_mem _ hx))
    refine ⟨v :: vs, ?_⟩
    simp only [MessageIterator.drain, drainBoxes, hv]
    simp only [MessageIterator.drain] at hvs
    simp [hvs]

theorem bucket_push_self (a : MessageAdapter Ty El) (M : Ty) (v : El M)
    (e : Entity) :
    (a.push_message M v e).bucket e M = a.bucket e M ++ [MessageBox.new M v e] := by
  unfold MessageAdapter.push_message MessageAdapter.bucket
  simp [mapGet?_insert_self]

theorem bucket_of_sends (e : Entity) (M : Ty) (vs : List (El M))
    (a : MessageAdapter Ty El) :
    (a.applyOps (vs.map (fun v => AdapterOp.send M v e))).bucket e M =
      a.bucket e M ++ vs.map (fun v => MessageBox.new M v e) := by
  induction vs generalizing a with
  | nil => simp [MessageAdapter.applyOps]
  | cons v vs ih =>
    simp only [List.map_cons, MessageAdapter.applyOps, List.foldl_cons]
    have := ih (a.applyOp (AdapterOp.send M v e))
    simp only [MessageAdapter.applyOps] at this
    rw [this, MessageAdapter.applyOp, bucket_push_self]
    simp

theorem inv_empty : (MessageAdapter.empty : MessageAdapter Ty El).inv := by
  refine ⟨by simp [MessageAdapter.empty], ?_⟩
  intro p hp
  simp [MessageAdapter.empty] at hp

theorem inv_push (a : MessageAdapter Ty El) (M : Ty) (v : El M) (t : Entity)
    (h : a.inv) : (a.push_message M v t).inv := by
  obtain ⟨hkeys, hmem⟩ := h
  have hinner_nodup :
      (((mapGet? a.messages t).getD []).map Prod.fst).Nodup := by
    cases hg : mapGet? a.messages t with
    | none => simp
    | some i =>
      simp only [Option.getD_some]
      exact (hmem _ (mapGet?_mem _ _ _ hg)).2.1
  have hinner_good :
      ∀ q ∈ (mapGet? a.messages t).getD [], q.2 ≠ [] ∧
        ∀ mb ∈ q.2, goodBox t q.1 mb := by
    cases hg : mapGet? a.messages t with
    | none => simp
    | some i =>
      simp only [Option.getD_some]
      intro q hq
      exact (hmem _ (mapGet?_mem _ _ _ hg)).2.2 q hq
  have hvec_good :
      ∀ mb ∈ (mapGet? ((mapGet? a.messages t).getD []) M).getD [],
        goodBox t M mb := by
    cases hg : mapGet? ((mapGet? a.messages t).getD []) M with
    | none => simp
    | some w =>
      simp only [Option.getD_some]
      intro mb hmb
      exact (hinner_good _ (mapGet?_mem _ _ _ hg)).2 mb hmb
  refine ⟨keys_mapInsert_nodup _ _ _ hkeys, ?_⟩
  intro p hp
  rcases mem_mapInsert _ _ _ _ hp with hp | hp
  · subst hp
    refine ⟨mapInsert_ne_nil _ _ _, keys_mapInsert_nodup _ _ _ hinner_nodup, ?_⟩
    intro q hq
    rcases mem_mapInsert _ _ _ _ hq with hq | hq
    · subst hq
      refine ⟨by simp, ?_⟩
      intro mb hmb
      rcases List.mem_append.mp hmb with hmb | hmb
      · exact hvec_good mb hmb
      · have hmb' : mb = MessageBox.new M v t := by simpa using hmb
        subst hmb'
        exact ⟨rfl, rfl, rfl⟩
    · exact hinner_good q hq
  · exact hmem p hp

theorem inv_erase (a : MessageAdapter Ty El) (e : Entity) (h : a.inv) :
    MessageAdapter.inv (⟨mapErase a.messages e⟩ : MessageAdapter Ty El) := by
  obtain ⟨hkeys, hmem⟩ := h
  exact ⟨keys_mapErase_nodup _ _ hkeys,
    fun p hp => hmem p (mem_of_mem_mapErase _ _ _ hp)⟩

theorem inv_applyOp (a : MessageAdapter Ty El) (op : AdapterOp Ty El)
    (h : a.inv) : (a.applyOp op).inv := by
  cases op with
  | send M v t => exact inv_push a M v t h
  | readMessages e => exact inv_erase a e h
  | removeFor e => exact inv_erase a e h

theorem inv_applyOps_of (ops : List (AdapterOp Ty El))
    (a : MessageAdapter Ty El) (h : a.inv) : (a.applyOps ops).inv := by
  induction ops generalizing a with
  | nil => exact h
  | cons op ops ih => exact ih _ (inv_applyOp a op h)

theorem inv_reachable (ops : List (AdapterOp Ty El)) :
    ((MessageAdapter.empty : MessageAdapter Ty El).applyOps ops).inv :=
  inv_applyOps_of ops _ inv_empty

theorem bucket_good (a : MessageAdapter Ty El) (e : Entity) (M : Ty)
    (h : a.inv) : ∀ mb ∈ a.bucket e M, goodBox e M mb := by
  unfold MessageAdapter.bucket
  cases hg : mapGet? a.messages e with
  | none => simp [mapGet?]
  | some i =>
    simp only [Option.getD_some]
    cases hgi : mapGet? i M with
    | none => simp
    | some w =>
      simp only [Option.getD_some]
      intro mb hmb
      exact ((h.2 _ (mapGet?_mem _ _ _ hg)).2.2 _
        (mapGet?_mem _ _ _ hgi)).2 mb hmb

theorem not_mem_entities_applyOps (a : MessageAdapter Ty El) (e : Entity)
    (ops : List (AdapterOp Ty El))
    (hops : ∀ op ∈ ops, ∀ M v, op ≠ AdapterOp.send M v e)
    (h : e ∉ a.entities) : e ∉ (a.applyOps ops).entities := by
  induction ops generalizing a with
  | nil => exact h
  | cons op ops ih =>
    refine ih _ (fun o ho M v => hops o (List.mem_cons_of_mem _ ho) M v) ?_
    cases op with
    | send M v t =>
      have hne : t ≠ e := by
        intro hte
        exact hops _ (List.mem_cons_self _ _) M v (by rw [hte])
      intro hmem
      rcases mem_keys_mapInsert _ _ _ _ hmem with h' | h'
      · exact hne h'.symm
      · exact h h'
    | readMessages e' =>
      intro hmem
      exact h (mem_keys_of_mem_keys_mapErase _ _ _ hmem)
    | removeFor e' =>
      intro hmem
      exact h (mem_keys_of_mem_keys_mapErase _ _ _ hmem)

theorem mem_entities_push (a : MessageAdapter Ty El) (M : Ty) (v : El M)
    (e : Entity) : e ∈ (a.push_message M v e).entities :=
  List.mem_map_of_mem Prod.fst (mapGet?_mem _ _ _ (mapGet?_insert_self _ _ _))

theorem not_mem_entities_reader (a : MessageAdapter Ty El) (e : Entity) :
    e ∉ (a.message_reader e).2.entities :=
  not_mem_keys_mapErase _ _

theorem reader_read_messages (a : MessageAdapter Ty El) (e : Entity) (M : Ty) :
    (((a.message_reader e).1.read M).1 : MessageIterator Ty El M) =
      ⟨a.bucket e M⟩ := rfl

end ModelLemmas

section Claims

variable {Ty : Type} {El : Ty → Type} [DecidableEq Ty]

/-- C1: for every sequence of send_message calls that all target the same
entity `e` and carry payloads of the same concrete type `M`, calling
`message_reader e` and then `read M` on the resulting reader yields an
iterator that produces exactly those payload values in enqueue order and
then ends (per-(entity, type) FIFO). -/
theorem C1_fifo_per_entity_and_type (M : Ty) (e : Entity) (vs : List (El M)) :
    ((((MessageAdapter.empty : MessageAdapter Ty El).applyOps
          (vs.map (fun v => AdapterOp.send M v e))).message_reader e).1.read
        M).1.drain = some vs := by
  have hb := bucket_of_sends e M vs (MessageAdapter.empty : MessageAdapter Ty El)
  rw [show (MessageAdapter.empty : MessageAdapter Ty El).bucket e M = [] from rfl,
    List.nil_append] at hb
  rw [reader_read_messages, hb]
  exact drain_map_new M e vs

/-- C2: for distinct entities `A`, `B` and any interleaving of send_message
calls targeting `A` and `B`, the reader returned by `message_reader A`
contains no message that was enqueued with target `B`: every box the `read M`
iterator holds records target `A`, never `B`. -/
theorem C2_entity_isolation (ops : List (AdapterOp Ty El)) (A B : Entity)
    (M : Ty) (hAB : A ≠ B)
    (hops : ∀ op ∈ ops, ∃ M' v t, op = AdapterOp.send M' v t ∧ (t = A ∨ t = B)) :
    ∀ mb ∈ ((((MessageAdapter.empty : MessageAdapter Ty El).applyOps
          ops).message_reader A).1.read M).1.messages,
      mb.target = A ∧ mb.target ≠ B := by
  intro mb hmb
  rw [reader_read_messages] at hmb
  have hg := bucket_good _ A M (inv_reachable ops) mb hmb
  exact ⟨hg.1, fun hB => hAB (hg.1 ▸ hB)⟩

/-- C3: after `message_reader e` the entity key `e` is removed from the
router's outer map entirely, so `entities` does not include `e` across any
further operations that are not a send to `e`, until a new send to `e`
occurs (which puts `e` back). -/
theorem C3_reader_removes_entity_key (ops₀ ops₁ : List (AdapterOp Ty El))
    (e : Entity)
    (hops : ∀ op ∈ ops₁, ∀ M v, op ≠ AdapterOp.send M v e) :
    e ∉ ((((MessageAdapter.empty : MessageAdapter Ty El).applyOps
        ops₀).message_reader e).2.applyOps ops₁).entities ∧
      ∀ (M : Ty) (v : El M),
        e ∈ (((((MessageAdapter.empty : MessageAdapter Ty El).applyOps
            ops₀).message_reader e).2.applyOps ops₁).push_message M v
          e).entities := by
  constructor
  · exact not_mem_entities_applyOps _ e ops₁ hops (not_mem_entities_reader _ e)
  · intro M v
    exact mem_entities_push _ M v e

/-- C4: `read M` is consuming-per-type on a single reader: the first call
returns an iterator over the whole bucket the reader holds for `M`, and a
second `read M` call on the resulting reader returns an iterator that yields
no items. -/
theorem C4_read_is_consuming_per_type (r : MessageReader Ty El) (M : Ty) :
    ((r.read M).1 : MessageIterator Ty El M) =
        ⟨(mapGet? r.messages M).getD []⟩ ∧
      (((r.read M).2.read M).1 : MessageIterator Ty El M).drain = some [] := by
  refine ⟨rfl, ?_⟩
  show MessageIterator.drain
      (⟨(mapGet? (mapErase r.messages M) M).getD []⟩ : MessageIterator Ty El M) =
    some []
  rw [mapGet?_erase_self]
  rfl

/-- C5: for every router state reachable by adapter operations, draining the
iterator obtained from `message_reader` followed by `read M` never hits the
type-mismatch unwrap-panic branch of `MessageIterator.next`: the full
traversal returns a value list rather than panicking. -/
theorem C5_iterator_unwrap_unreachable (ops : List (AdapterOp Ty El))
    (e : Entity) (M : Ty) :
    ∃ vs, ((((MessageAdapter.empty : MessageAdapter Ty El).applyOps
        ops).message_reader e).1.read M).1.drain = some vs := by
  have hgood := bucket_good _ e M (inv_reachable ops)
  rw [reader_read_messages]
  exact drain_of_good M _ (fun mb hmb => (hgood mb hmb).2)

/-- C6: `MessageBox.downcast` (and `downcast_ref`) on a box constructed via
`MessageBox.new` with a payload of a tag other than `M` returns the
"Wrong message type" error; on a box constructed with tag `M` it returns
`Ok` of the original payload. -/
theorem C6_downcast_checks_type (U M : Ty) (u : El U) (w : El M) (e : Entity)
    (h : U ≠ M) :
    (MessageBox.new U u e).downcast M =
        some (Except.error "Wrong message type") ∧
      (MessageBox.new U u e).downcast_ref M =
        some (Except.error "Wrong message type") ∧
      (MessageBox.new M w e).downcast M = some (Except.ok w) ∧
      (MessageBox.new M w e).downcast_ref M = some (Except.ok w) :=
  ⟨downcast_new_ne U M u e h, downcast_ref_new_ne U M u e h,
    downcast_new_self M w e, downcast_ref_new_self M w e⟩

/-- C7: in every reachable router state, every box filed under outer entity
key `e` and inner type-tag key `t` records `target = e` and
`message_type = t`. -/
theorem C7_keys_match_box_fields (ops : List (AdapterOp Ty El)) :
    ∀ p ∈ ((MessageAdapter.empty : MessageAdapter Ty El).applyOps ops).messages,
      ∀ q ∈ p.2, ∀ mb ∈ q.2, mb.target = p.1 ∧ mb.message_type = q.1 := by
  intro p hp q hq mb hmb
  have h := ((inv_reachable ops).2 p hp).2.2 q hq
  exact ⟨(h.2 mb hmb).1, (h.2 mb hmb).2.1⟩

/-- C8: send_message's result is fully characterized by the channel state:
when the receiver is alive it returns the pushed store and appends exactly
one Redraw request to the channel, and it panics (fails) exactly when the
notify channel's receiver is gone. -/
theorem C8_send_message_notifies (a : MessageAdapter Ty El)
    (ch : WindowChannel) (M : Ty) (v : El M) (t : Entity) :
    a.send_message ch M v t =
      if ch.receiver_alive then
        some (a.push_message M v t,
          { ch with sent := ch.sent ++ [WindowRequest.Redraw] })
      else none := by
  cases hr : ch.receiver_alive with
  | true => simp [MessageAdapter.send_message, WindowChannel.send, hr]
  | false => simp [MessageAdapter.send_message, WindowChannel.send, hr]

/-- C9: `len` returns the size of the outer map, which in reachable states is
the number of distinct entities with pending messages (the entity list has no
duplicates); after two sends targeting the same entity `len` is 1; and
`is_empty` is true exactly when the outer map has no entries. -/
theorem C9_len_counts_entities (ops : List (AdapterOp Ty El)) (M M' : Ty)
    (v : El M) (v' : El M') (e : Entity) :
    (((MessageAdapter.empty : MessageAdapter Ty El).applyOps ops).entities).Nodup ∧
      ((MessageAdapter.empty : MessageAdapter Ty El).applyOps ops).len =
        (((MessageAdapter.empty : MessageAdapter Ty El).applyOps
          ops).entities).length ∧
      (((MessageAdapter.empty : MessageAdapter Ty El).applyOps ops).is_empty =
          true ↔
        ((MessageAdapter.empty : MessageAdapter Ty El).applyOps ops).messages =
          []) ∧
      (((MessageAdapter.empty : MessageAdapter Ty El).push_message M v
          e).push_message M' v' e).len = 1 := by
  refine ⟨(inv_reachable ops).1, ?_, ?_, ?_⟩
  · simp [MessageAdapter.len, MessageAdapter.entities]
  · simp [MessageAdapter.is_empty, List.isEmpty_iff]
  · simp [MessageAdapter.empty, MessageAdapter.push_message, MessageAdapter.len,
      mapInsert, mapGet?]

/-- C10: in every reachable router state, every entity key in the outer map
has a non-empty inner map all of whose buckets are non-empty; consequently
every entity listed by `entities` has at least one pending message. -/
theorem C10_no_empty_entries (ops : List (AdapterOp Ty El)) :
    (∀ p ∈ ((MessageAdapter.empty : MessageAdapter Ty El).applyOps
        ops).messages, p.2 ≠ [] ∧ ∀ q ∈ p.2, q.2 ≠ []) ∧
      ∀ e ∈ ((MessageAdapter.empty : MessageAdapter Ty El).applyOps
          ops).entities,
        ∃ p, p ∈ ((MessageAdapter.empty : MessageAdapter Ty El).applyOps
          ops).messages ∧ p.1 = e ∧ p.2 ≠ [] := by
  have hinv : ((MessageAdapter.empty : MessageAdapter Ty El).applyOps ops).inv :=
    inv_reachable ops
  refine ⟨fun p hp =>
    ⟨(hinv.2 p hp).1, fun q hq => ((hinv.2 p hp).2.2 q hq).1⟩, ?_⟩
  intro e he
  simp only [MessageAdapter.entities] at he
  rcases List.mem_map.mp he with ⟨p, hp, hpe⟩
  exact ⟨p, hp, hpe, (hinv.2 p hp).1⟩

end Claims

section Witnesses

/-- Witness for C2 at a concrete interleaving: two sends, one to entity 1 and
one to entity 2, then reading entity 1. -/
theorem C2_witness :
    (1 : Entity) ≠ 2 ∧
      (∀ op ∈ [(AdapterOp.send 0 5 1 : AdapterOp NatTag natEl), AdapterOp.send 0 7 2],
        ∃ M' v t, op = AdapterOp.send M' v t ∧ (t = 1 ∨ t = 2)) ∧
      ∀ mb ∈ ((((MessageAdapter.empty : MessageAdapter NatTag natEl).applyOps
            [AdapterOp.send 0 5 1, AdapterOp.send 0 7 2]).message_reader
          1).1.read 0).1.messages,
        mb.target = 1 ∧ mb.target ≠ 2 := by
  have hops : ∀ op ∈ [(AdapterOp.send 0 5 1 : AdapterOp NatTag natEl), AdapterOp.send 0 7 2],
      ∃ M' v t, op = AdapterOp.send M' v t ∧ (t = 1 ∨ t = 2) := by
    intro op hop
    rcases List.mem_cons.mp hop with h | h
    · exact ⟨0, 5, 1, h, Or.inl rfl⟩
    · rcases List.mem_cons.mp h with h | h
      · exact ⟨0, 7, 2, h, Or.inr rfl⟩
      · exact absurd h (List.not_mem_nil op)
  exact ⟨by decide, hops,
    C2_entity_isolation [AdapterOp.send 0 5 1, AdapterOp.send 0 7 2] 1 2 0
      (by decide) hops⟩

/-- Witness for C3 at a concrete run: send to entity 7, drain entity 7. -/
theorem C3_witness :
    (∀ op ∈ ([] : List (AdapterOp NatTag natEl)),
        ∀ M v, op ≠ AdapterOp.send M v 7) ∧
      ((7 : Entity) ∉
          ((((MessageAdapter.empty : MessageAdapter NatTag natEl).applyOps
            [AdapterOp.send 0 5 7]).message_reader 7).2.applyOps []).entities ∧
        ∀ (M : NatTag) (v : natEl M),
          7 ∈ (((((MessageAdapter.empty : MessageAdapter NatTag natEl).applyOps
              [AdapterOp.send 0 5 7]).message_reader 7).2.applyOps
            []).push_message M v 7).entities) :=
  ⟨fun op hop => absurd hop (List.not_mem_nil op),
    C3_reader_removes_entity_key [AdapterOp.send 0 5 7] [] 7
      (fun op hop => absurd hop (List.not_mem_nil op))⟩

/-- Witness for C6 at concrete tags 0 and 1. -/
theorem C6_witness :
    (0 : NatTag) ≠ 1 ∧
      (((MessageBox.new 0 5 3 : MessageBox NatTag natEl)).downcast 1 =
          some (Except.error "Wrong message type") ∧
        ((MessageBox.new 0 5 3 : MessageBox NatTag natEl)).downcast_ref 1 =
          some (Except.error "Wrong message type") ∧
        ((MessageBox.new 1 9 3 : MessageBox NatTag natEl)).downcast 1 = some (Except.ok 9) ∧
        ((MessageBox.new 1 9 3 : MessageBox NatTag natEl)).downcast_ref 1 =
          some (Except.ok 9)) :=
  ⟨by decide, C6_downcast_checks_type 0 1 5 9 3 (by decide)⟩

/-- Witness for C7 at a concrete state: one send of tag 0 to entity 1. -/
theorem C7_witness :
    (((1 : Entity), [((0 : NatTag), [(MessageBox.new 0 5 1 : MessageBox NatTag natEl)])]) ∈
        ((MessageAdapter.empty : MessageAdapter NatTag natEl).applyOps
          [AdapterOp.send 0 5 1]).messages) ∧
      (((0 : NatTag), [(MessageBox.new 0 5 1 : MessageBox NatTag natEl)]) ∈
        [((0 : NatTag), [(MessageBox.new 0 5 1 : MessageBox NatTag natEl)])]) ∧
      ((MessageBox.new 0 5 1 : MessageBox NatTag natEl) ∈
        [(MessageBox.new 0 5 1 : MessageBox NatTag natEl)]) ∧
      (((MessageBox.new 0 5 1 : MessageBox NatTag natEl)).target = 1 ∧
        ((MessageBox.new 0 5 1 : MessageBox NatTag natEl)).message_type = 0) :=
  ⟨List.mem_singleton.mpr rfl, List.mem_singleton.mpr rfl,
    List.mem_singleton.mpr rfl,
    C7_keys_match_box_fields [AdapterOp.send 0 5 1] _
      (List.mem_singleton.mpr rfl) _ (List.mem_singleton.mpr rfl) _
      (List.mem_singleton.mpr rfl)⟩

/-- Witness for C10 at a concrete state: one send of tag 0 to entity 2. -/
theorem C10_witness :
    (((2 : Entity), [((0 : NatTag), [(MessageBox.new 0 4 2 : MessageBox NatTag natEl)])]) ∈
        ((MessageAdapter.empty : MessageAdapter NatTag natEl).applyOps
          [AdapterOp.send 0 4 2]).messages) ∧
      ([((0 : NatTag), [(MessageBox.new 0 4 2 : MessageBox NatTag natEl)])] ≠
          ([] : List (NatTag × List (MessageBox NatTag natEl))) ∧
        ∀ q ∈ [((0 : NatTag), [(MessageBox.new 0 4 2 : MessageBox NatTag natEl)])],
          q.2 ≠ []) ∧
      ((2 : Entity) ∈
          ((MessageAdapter.empty : MessageAdapter NatTag natEl).applyOps
            [AdapterOp.send 0 4 2]).entities ∧
        ∃ p, p ∈ ((MessageAdapter.empty : MessageAdapter NatTag natEl).applyOps
            [AdapterOp.send 0 4 2]).messages ∧ p.1 = 2 ∧ p.2 ≠ []) :=
  ⟨List.mem_singleton.mpr rfl,
    (C10_no_empty_entries [AdapterOp.send 0 4 2]).1 _
      (List.mem_singleton.mpr rfl),
    List.mem_singleton.mpr rfl,
    (C10_no_empty_entries [AdapterOp.send 0 4 2]).2 2
      (List.mem_singleton.mpr rfl)⟩

end Witnesses
